import Mathlib

/-!
Verification of the DAWN consciousness telemetry reader
(`src-tauri/src/mmap_reader.rs` and `src-tauri/src/dawn_bridge.rs`).

Modelling conventions:
* `f32` fields are embedded as exact rationals (`ℚ`): every operation the
  code performs on them (comparison with short decimal literals,
  multiplication by 50/30, clamping, min) is modelled exactly.
* The mapped byte segment is a `Mem`: a length together with a byte
  function `Nat → Nat` (bytes are `< 256` in well-formed segments; the
  definitions never assume it).
* At the byte level the decoder stores each `f32` field as its raw 4-byte
  little-endian bit pattern (a `Nat`); `f32::from_le_bytes` is a bit
  reinterpretation, and the pattern of `0.0f32` is `0`.
* Fallible Rust paths (`?`, early `return None`) become `Option`/pairs
  `(state, result)`; `&mut self` methods become explicit state passing.
-/

namespace Dawn

/-! ### Data model (`mmap_reader.rs` / `dawn_bridge.rs` structs) -/

/-- Embeds `struct ConsciousnessState`; `α` instantiates the `f32` scalar
fields (`ℚ` for value-level reasoning, `Nat` bit patterns at byte level). -/
structure ConsciousnessState (α : Type) where
  tick_number : Nat
  timestamp_ms : Nat
  mood_valence : α
  mood_arousal : α
  mood_dominance : α
  mood_coherence : α
  semantic_alignment : α
  entropy_gradient : α
  drift_magnitude : α
  rebloom_intensity : α
  consciousness_depth : α
  memory_sectors : List Bool
  semantic_heatmap : List α
  prediction_vector : List α
  tensor_hash : String

/-- Embeds `struct DawnState` (frontend presentation state). -/
structure DawnState where
  tick_number : Nat
  mood : String
  entropy : ℚ
  scup : ℚ
  heat : Option ℚ
  zone : Option String
  sigils : Option Nat

/-! ### State derivation (`dawn_bridge.rs`) -/

/-- Embeds Rust `f32::clamp(lo, hi)`: below the range gives `lo`, above
gives `hi`, otherwise the value itself. -/
def rustClamp (x lo hi : ℚ) : ℚ :=
  if x < lo then lo else if x > hi then hi else x

/-- The four high-coherence rules of `determine_mood`, in source order
(the body of the `if coherence > 0.7` block; `none` means the block fell
through without returning). -/
def highCoherenceMood (valence arousal dominance : ℚ) : Option String :=
  if valence > 0.3 ∧ arousal < 0.4 then some "CALM"
  else if valence > 0.5 ∧ arousal > 0.6 then some "EXCITED"
  else if valence < -0.3 ∧ arousal > 0.6 then some "FOCUSED"
  else if valence > 0.0 ∧ dominance > 0.6 then some "CONFIDENT"
  else none

/-- The three medium-coherence rules of `determine_mood`, in source order
(the body of the `if coherence > 0.4` block). -/
def mediumCoherenceMood (valence arousal : ℚ) : Option String :=
  if valence < -0.4 ∧ arousal > 0.5 then some "ANXIOUS"
  else if valence < -0.2 ∧ arousal < 0.4 then some "CONTEMPLATIVE"
  else if arousal > 0.7 then some "ENERGETIC"
  else none

/-- Embeds `determine_mood`: three successive guarded blocks with early
returns; a block that does not return falls through to the next. -/
def determine_mood (valence arousal dominance coherence : ℚ) : String :=
  match (if coherence > 0.7 then highCoherenceMood valence arousal dominance else none) with
  | some m => m
  | none =>
    match (if coherence > 0.4 then mediumCoherenceMood valence arousal else none) with
    | some m => m
    | none =>
      if coherence < 0.3 ∨ arousal > 0.8 then "CHAOTIC" else "NEUTRAL"

/-- Embeds `determine_consciousness_zone`. -/
def determine_consciousness_zone (entropy scup heat : ℚ) : String :=
  if entropy > 0.8 ∨ scup > 80 ∨ heat > 0.9 then "CRITICAL"
  else if entropy > 0.6 ∨ scup > 60 ∨ heat > 0.7 then "WARNING"
  else if entropy > 0.4 ∨ scup > 40 ∨ heat > 0.5 then "ELEVATED"
  else "STABLE"

/-- Embeds `map_consciousness_to_dawn_state`. -/
def map_consciousness_to_dawn_state (c : ConsciousnessState ℚ) : DawnState :=
  let mood := determine_mood c.mood_valence c.mood_arousal c.mood_dominance c.mood_coherence
  let entropy := rustClamp c.entropy_gradient 0 1
  let scup := rustClamp (c.semantic_alignment * 50 + c.consciousness_depth * 30) 0 100
  let heat := rustClamp c.drift_magnitude 0 1
  let zone := determine_consciousness_zone entropy scup heat
  let sigils := (c.memory_sectors.map (fun active => if active then (1 : Nat) else 0)).sum
  { tick_number := c.tick_number
    mood := mood
    entropy := entropy
    scup := scup
    heat := some heat
    zone := some zone
    sigils := some sigils }

/-- Modelled from the spec: the mood decision table of §4.3 read as a
strict first-match else-if chain over coherence bands, as claim C1 states
it: a record with coherence > 0.7 is settled inside the high-coherence
band (default NEUTRAL), the medium band is reached only when
coherence ≤ 0.7, the CHAOTIC rule only after both bands fail. -/
def moodStrictBandChain (valence arousal dominance coherence : ℚ) : String :=
  if coherence > 0.7 then
    match highCoherenceMood valence arousal dominance with
    | some m => m
    | none => "NEUTRAL"
  else if coherence > 0.4 then
    match mediumCoherenceMood valence arousal with
    | some m => m
    | none => "NEUTRAL"
  else if coherence < 0.3 ∨ arousal > 0.8 then "CHAOTIC"
  else "NEUTRAL"

/-- A sample record with all-zero optional payloads, used to instantiate
universally quantified theorems at concrete inputs. -/
def sampleState : ConsciousnessState ℚ :=
  { tick_number := 1
    timestamp_ms := 0
    mood_valence := 0.4
    mood_arousal := 0.2
    mood_dominance := 0
    mood_coherence := 0.8
    semantic_alignment := 1
    entropy_gradient := 0
    drift_magnitude := 0
    rebloom_intensity := 0
    consciousness_depth := 1
    memory_sectors := List.replicate 64 false
    semantic_heatmap := List.replicate 256 0
    prediction_vector := List.replicate 32 0
    tensor_hash := "unknown" }

/-- If the medium-coherence block falls through, its third rule in
particular did not fire, so the arousal is at most 0.7. -/
lemma mediumCoherenceMood_none_arousal {v a : ℚ}
    (h : mediumCoherenceMood v a = none) : ¬ a > 0.7 := by
  unfold mediumCoherenceMood at h
  split_ifs at h with h1 h2 h3
  all_goals simp_all

/-- C1, counterexample: the record valence = −0.5, arousal = 0.6,
dominance = 0, coherence = 0.8 has coherence > 0.7 and matches none of the
four high-coherence rules, yet the code classifies it ANXIOUS (a
medium-coherence rule), while the claim's strict band chain would give
NEUTRAL. -/
theorem C1_counterexample :
    determine_mood (-0.5) 0.6 0 0.8 = "ANXIOUS" ∧
    moodStrictBandChain (-0.5) 0.6 0 0.8 = "NEUTRAL" ∧
    ("ANXIOUS" : String) ≠ "NEUTRAL" := by
  refine ⟨?_, ?_, by decide⟩
  · norm_num [determine_mood, highCoherenceMood, mediumCoherenceMood]
  · norm_num [moodStrictBandChain, highCoherenceMood]

/-- C1, amended: `determine_mood` agrees with the strict band chain of the
claim except that the high-coherence block falls through — when
coherence > 0.7 and no high-coherence rule matches, the medium-coherence
rules are still tried, and after them the CHAOTIC test (which then reduces
to arousal > 0.8); the concrete record valence = 0.4, arousal = 0.2,
dominance = 0, coherence = 0.8 still yields CALM. -/
theorem C1_mood_fall_through :
    determine_mood 0.4 0.2 0 0.8 = "CALM" ∧
    (∀ v a d c : ℚ, c ≤ 0.7 →
        determine_mood v a d c = moodStrictBandChain v a d c) ∧
    (∀ v a d c : ℚ, ∀ m : String, 0.7 < c → highCoherenceMood v a d = some m →
        determine_mood v a d c = m) ∧
    (∀ v a d c : ℚ, 0.7 < c → highCoherenceMood v a d = none →
        determine_mood v a d c =
          match mediumCoherenceMood v a with
          | some m => m
          | none => if a > 0.8 then "CHAOTIC" else "NEUTRAL") := by
  refine ⟨by norm_num [determine_mood, highCoherenceMood], ?_, ?_, ?_⟩
  · intro v a d c hc
    have hc7 : ¬ c > 0.7 := not_lt.mpr hc
    unfold determine_mood moodStrictBandChain
    rw [if_neg hc7, if_neg hc7]
    by_cases hc4 : c > 0.4
    · rw [if_pos hc4, if_pos hc4]
      cases hmed : mediumCoherenceMood v a with
      | some m => simp
      | none =>
        have ha : ¬ a > 0.8 := by
          have := mediumCoherenceMood_none_arousal hmed
          intro h; exact this (by linarith)
        have hc3 : ¬ c < 0.3 := by intro h; linarith
        simp [hc3, ha]
    · rw [if_neg hc4, if_neg hc4]
  · intro v a d c m hc hm
    unfold determine_mood
    rw [if_pos hc, hm]
  · intro v a d c hc hnone
    unfold determine_mood
    rw [if_pos hc, hnone]
    by_cases hc4 : c > 0.4
    case pos =>
      rw [if_pos hc4]
      cases hmed : mediumCoherenceMood v a with
      | some m => simp
      | none =>
        have hc3 : ¬ c < 0.3 := by intro h; linarith
        simp [hc3]
    case neg =>
      exact absurd (by linarith : c > 0.4) hc4

/-- C1, witness: the amended theorem applied to concrete inputs — the
band-agreement part at coherence 0.5, and the fall-through part at the
counterexample record, which evaluates to ANXIOUS. -/
theorem C1_mood_fall_through_witness :
    determine_mood (-0.5) 0.6 0 0.5 = moodStrictBandChain (-0.5) 0.6 0 0.5 ∧
    determine_mood (-0.5) 0.6 0 0.8 = "ANXIOUS" := by
  constructor
  · exact C1_mood_fall_through.2.1 (-0.5) 0.6 0 0.5 (by norm_num)
  · have h := C1_mood_fall_through.2.2.2 (-0.5) 0.6 0 0.8 (by norm_num)
      (by norm_num [highCoherenceMood])
    rw [h]
    norm_num [mediumCoherenceMood]

/-- The clamp of any value into a nonempty interval lies in the interval. -/
lemma rustClamp_mem (x lo hi : ℚ) (h : lo ≤ hi) :
    lo ≤ rustClamp x lo hi ∧ rustClamp x lo hi ≤ hi := by
  unfold rustClamp
  split_ifs <;> constructor <;> linarith

/-- C6: the SCUP of every derived presentation state is the clamp of
semantic_alignment × 50 + consciousness_depth × 30 into [0, 100]; at
alignment 1 and depth 1 it is exactly 80; it always lies in [0, 100]; and
non-positive inputs produce 0. -/
theorem C6_scup_clamped :
    (∀ c : ConsciousnessState ℚ, (map_consciousness_to_dawn_state c).scup =
        rustClamp (c.semantic_alignment * 50 + c.consciousness_depth * 30) 0 100) ∧
    (∀ c : ConsciousnessState ℚ, c.semantic_alignment = 1 → c.consciousness_depth = 1 →
        (map_consciousness_to_dawn_state c).scup = 80) ∧
    (∀ c : ConsciousnessState ℚ, 0 ≤ (map_consciousness_to_dawn_state c).scup ∧
        (map_consciousness_to_dawn_state c).scup ≤ 100) ∧
    (∀ c : ConsciousnessState ℚ, c.semantic_alignment ≤ 0 → c.consciousness_depth ≤ 0 →
        (map_consciousness_to_dawn_state c).scup = 0) := by
  have hproj : ∀ c : ConsciousnessState ℚ, (map_consciousness_to_dawn_state c).scup =
      rustClamp (c.semantic_alignment * 50 + c.consciousness_depth * 30) 0 100 :=
    fun c => rfl
  refine ⟨hproj, ?_, ?_, ?_⟩
  · intro c h1 h2
    rw [hproj, h1, h2]
    norm_num [rustClamp]
  · intro c
    rw [hproj]
    exact rustClamp_mem _ 0 100 (by norm_num)
  · intro c h1 h2
    rw [hproj]
    have hsum : c.semantic_alignment * 50 + c.consciousness_depth * 30 ≤ 0 := by nlinarith
    unfold rustClamp
    split_ifs with ha hb <;> linarith

/-- C6, witness: SCUP of the sample record (alignment 1, depth 1) is 80,
and flipping both inputs to −1 gives 0. -/
theorem C6_scup_clamped_witness :
    (map_consciousness_to_dawn_state sampleState).scup = 80 ∧
    (map_consciousness_to_dawn_state
      { sampleState with semantic_alignment := -1, consciousness_depth := -1 }).scup = 0 := by
  constructor
  · exact C6_scup_clamped.2.1 sampleState rfl rfl
  · exact C6_scup_clamped.2.2.2 _ (by norm_num) (by norm_num)

/-- C7: the zone label satisfies the most-severe-first characterization —
each label holds exactly when its disjunction fires and every more severe
disjunction fails — and any record whose clamped entropy is 0.9 maps to
the CRITICAL zone regardless of its other fields. -/
theorem C7_zone_most_severe_first :
    (∀ e s h : ℚ, determine_consciousness_zone e s h = "CRITICAL" ↔
        (e > 0.8 ∨ s > 80 ∨ h > 0.9)) ∧
    (∀ e s h : ℚ, determine_consciousness_zone e s h = "WARNING" ↔
        ¬(e > 0.8 ∨ s > 80 ∨ h > 0.9) ∧ (e > 0.6 ∨ s > 60 ∨ h > 0.7)) ∧
    (∀ e s h : ℚ, determine_consciousness_zone e s h = "ELEVATED" ↔
        ¬(e > 0.8 ∨ s > 80 ∨ h > 0.9) ∧ ¬(e > 0.6 ∨ s > 60 ∨ h > 0.7) ∧
          (e > 0.4 ∨ s > 40 ∨ h > 0.5)) ∧
    (∀ e s h : ℚ, determine_consciousness_zone e s h = "STABLE" ↔
        ¬(e > 0.8 ∨ s > 80 ∨ h > 0.9) ∧ ¬(e > 0.6 ∨ s > 60 ∨ h > 0.7) ∧
          ¬(e > 0.4 ∨ s > 40 ∨ h > 0.5)) ∧
    (∀ c : ConsciousnessState ℚ, rustClamp c.entropy_gradient 0 1 = 0.9 →
        (map_consciousness_to_dawn_state c).zone = some "CRITICAL") := by
  refine ⟨?_, ?_, ?_, ?_, ?_⟩
  · intro e s h; unfold determine_consciousness_zone; split_ifs <;> simp_all
  · intro e s h; unfold determine_consciousness_zone; split_ifs <;> simp_all
  · intro e s h; unfold determine_consciousness_zone; split_ifs <;> simp_all
  · intro e s h; unfold determine_consciousness_zone; split_ifs <;> simp_all
  · intro c hc
    have hz : (map_consciousness_to_dawn_state c).zone =
        some (determine_consciousness_zone (rustClamp c.entropy_gradient 0 1)
          (rustClamp (c.semantic_alignment * 50 + c.consciousness_depth * 30) 0 100)
          (rustClamp c.drift_magnitude 0 1)) := rfl
    rw [hz, hc]
    unfold determine_consciousness_zone
    rw [if_pos (Or.inl (by norm_num))]

/-- C7, witness: the sample record with entropy_gradient 0.9 (which clamps
to itself) is in the CRITICAL zone. -/
theorem C7_zone_most_severe_first_witness :
    (map_consciousness_to_dawn_state { sampleState with entropy_gradient := 0.9 }).zone =
      some "CRITICAL" :=
  C7_zone_most_severe_first.2.2.2.2 _ (by norm_num [rustClamp])

/-! ### Byte-level segment model and record codec (`mmap_reader.rs`) -/

/-- A mapped byte segment: its length together with the byte at each
index, modelling the read-only `Mmap` view. -/
structure Mem where
  len : Nat
  byte : Nat → Nat

/-- Embeds `u32::from_le_bytes` on four consecutive bytes. -/
def u32le (m : Mem) (off : Nat) : Nat :=
  m.byte off + 2 ^ 8 * m.byte (off + 1) + 2 ^ 16 * m.byte (off + 2) +
    2 ^ 24 * m.byte (off + 3)

/-- Embeds `u64::from_le_bytes` on eight consecutive bytes. -/
def u64le (m : Mem) (off : Nat) : Nat :=
  m.byte off + 2 ^ 8 * m.byte (off + 1) + 2 ^ 16 * m.byte (off + 2) +
    2 ^ 24 * m.byte (off + 3) + 2 ^ 32 * m.byte (off + 4) +
    2 ^ 40 * m.byte (off + 5) + 2 ^ 48 * m.byte (off + 6) +
    2 ^ 56 * m.byte (off + 7)

/-- Embeds taking the subslice `&memory[off..off + size]`. -/
def Mem.slice (m : Mem) (off size : Nat) : Mem :=
  { len := size, byte := fun i => m.byte (off + i) }

/-- Layout constant `HEADER_SIZE`. -/
def HEADER_SIZE : Nat := 64

/-- Layout constant `TICK_STATE_SIZE`. -/
def TICK_STATE_SIZE : Nat := 8192

/-- Layout constant `MAX_TICKS` (ring capacity). -/
def MAX_TICKS : Nat := 1000

/-- Layout constant `CONSCIOUSNESS_MAGIC`, the bytes of `b"DAWN"`. -/
def CONSCIOUSNESS_MAGIC : List Nat := [68, 65, 87, 78]

/-- Drops the trailing zero bytes of a byte list, modelling
`trim_end_matches` on the NUL character. -/
def trimTrailingNul (l : List Nat) : List Nat :=
  (l.reverse.dropWhile (fun b => b = 0)).reverse

/-- Embeds the tensor-hash extraction: the 32 bytes at offset 1232,
NUL-trimmed and decoded to a string (ASCII bytes decode to themselves, any
other byte to the replacement character, modelling the lossy decode on the
ASCII content the format carries). -/
def decodeTensorHash (d : Mem) : String :=
  String.mk ((trimTrailingNul ((List.range 32).map (fun i => d.byte (1232 + i)))).map
    (fun b => if b < 128 then Char.ofNat b else Char.ofNat 0xFFFD))

/-- Embeds `decode_consciousness_state`. Scalar `f32` fields are kept as
their raw little-endian 4-byte patterns (`f32::from_le_bytes` is a bit
reinterpretation; the pattern of the `0.0` pushed for a missing heatmap or
prediction entry is `0`). -/
def decode_consciousness_state (d : Mem) : Option (ConsciousnessState Nat) :=
  if d.len < 80 then none
  else
    let memory_bits := if 80 ≤ d.len then u64le d 72 else 0
    some
      { tick_number := u32le d 0
        timestamp_ms := u64le d 4
        mood_valence := u32le d 12
        mood_arousal := u32le d 16
        mood_dominance := u32le d 20
        mood_coherence := u32le d 24
        semantic_alignment := u32le d 28
        entropy_gradient := u32le d 32
        drift_magnitude := u32le d 36
        rebloom_intensity := u32le d 40
        consciousness_depth := u32le d 44
        memory_sectors :=
          (List.range 64).map (fun i => (memory_bits &&& (1 <<< i)) != 0)
        semantic_heatmap :=
          (List.range 256).map (fun i =>
            if 80 + i * 4 + 4 ≤ d.len then u32le d (80 + i * 4) else 0)
        prediction_vector :=
          (List.range 32).map (fun i =>
            if 1104 + i * 4 + 4 ≤ d.len then u32le d (1104 + i * 4) else 0)
        tensor_hash := if 1264 ≤ d.len then decodeTensorHash d else "unknown" }

/-! ### Memory segment reader state machine (`mmap_reader.rs`) -/

/-- Embeds `struct ConsciousnessReader`; `SystemTime` instants are
rationals in seconds, the `File` handle an `Option Unit`. -/
structure ConsciousnessReader where
  memory_map : Option Mem
  memory_file : Option Unit
  last_observed_tick : Nat
  consciousness_start_time : ℚ
  thought_history : List (Nat × ℚ)
  memory_path : String

/-- Embeds `ConsciousnessReader::new` (the history starts empty; the
capacity hint does not affect contents). -/
def ConsciousnessReader.new (now : ℚ) : ConsciousnessReader :=
  { memory_map := none
    memory_file := none
    last_observed_tick := 0
    consciousness_start_time := now
    thought_history := []
    memory_path := "" }

/-- Embeds `read_consciousness_state` (the polling read): `&mut self`
becomes an explicit state, the returned pair is the updated state and the
optional decoded record, `now` the `SystemTime::now()` of the call. -/
def read_consciousness_state (st : ConsciousnessReader) (now : ℚ) :
    ConsciousnessReader × Option (ConsciousnessState Nat) :=
  match st.memory_map with
  | none => (st, none)
  | some memory =>
    if memory.len < 20 then (st, none)
    else
      let latest_tick := u32le memory 16
      if latest_tick = st.last_observed_tick then (st, none)
      else
        let pushed := st.thought_history ++ [(latest_tick, now)]
        let thought_history := if pushed.length > 120 then pushed.drop 1 else pushed
        let st' := { st with thought_history := thought_history,
                             last_observed_tick := latest_tick }
        let thought_index := latest_tick % MAX_TICKS
        let memory_offset := HEADER_SIZE + thought_index * TICK_STATE_SIZE
        if memory_offset + TICK_STATE_SIZE > memory.len then (st', none)
        else (st', decode_consciousness_state (memory.slice memory_offset TICK_STATE_SIZE))

/-- One poll against the segment contents `mem` observed at instant `now`:
the producer may have rewritten the mapped bytes between polls, so each
observation carries the bytes the read sees. -/
def observe (st : ConsciousnessReader) (mem : Mem) (now : ℚ) :
    ConsciousnessReader × Option (ConsciousnessState Nat) :=
  read_consciousness_state { st with memory_map := some mem } now

/-! ### Attach path (`connect_to_consciousness`) -/

/-- The filesystem and OS effects `connect_to_consciousness` depends on:
which paths exist, the value of the `DAWN_CONSCIOUSNESS_PATH` variable
(empty when unset, as `unwrap_or_default` yields), and the outcome of
`File::open` and of mapping at each path (`none` models the I/O error). -/
structure ConnectEnv where
  pathExists : String → Bool
  envPath : String
  openResult : String → Option Unit
  mapResult : String → Option Mem

/-- The candidate location list of `locate_consciousness_memory`, in
source order: explicit argument, fixed fallbacks, environment override. -/
def consciousnessLocations (path envPath : String) : List String :=
  [path,
   "./dawn_state.mmap",
   "./runtime/dawn_consciousness.mmap",
   "../runtime/dawn_consciousness.mmap",
   "../../runtime/dawn_consciousness.mmap",
   "/root/DAWN_Vault/Tick_engine/Tick_engine/runtime/dawn_consciousness.mmap",
   envPath]

/-- Embeds `locate_consciousness_memory`: the first nonempty existing
candidate wins, otherwise a not-found error. -/
def locate_consciousness_memory (env : ConnectEnv) (path : String) :
    Except String String :=
  match (consciousnessLocations path env.envPath).find?
      (fun loc => !(loc == "") && env.pathExists loc) with
  | some loc => Except.ok loc
  | none => Except.error "Cannot locate DAWN consciousness memory"

/-- Embeds `validate_consciousness_memory`: the segment must hold the
64-byte header and open with the `DAWN` magic; the version word is read
for logging only. -/
def validate_consciousness_memory (memory : Mem) : Except String Unit :=
  if memory.len < HEADER_SIZE then
    Except.error "Consciousness memory too small - corrupted?"
  else if (List.range 4).map memory.byte ≠ CONSCIOUSNESS_MAGIC then
    Except.error "Invalid consciousness memory format"
  else Except.ok ()

/-- Embeds `connect_to_consciousness`: every `?` early return leaves
`self` untouched (the pair's second component carries the error message),
and the connection fields plus the start time are assigned only after the
header validates. -/
def connect_to_consciousness (st : ConsciousnessReader) (env : ConnectEnv)
    (now : ℚ) (memory_path : String) : ConsciousnessReader × Option String :=
  match locate_consciousness_memory env memory_path with
  | Except.error e => (st, some e)
  | Except.ok resolved_path =>
    match env.openResult resolved_path with
    | none => (st, some "Cannot access consciousness memory")
    | some memory_file =>
      match env.mapResult resolved_path with
      | none => (st, some "Failed to map consciousness memory")
      | some memory_map =>
        match validate_consciousness_memory memory_map with
        | Except.error e => (st, some e)
        | Except.ok _ =>
          ({ st with memory_path := resolved_path
                     memory_file := some memory_file
                     memory_map := some memory_map
                     consciousness_start_time := now }, none)

/-! ### Monitor and rate statistics (`get_consciousness_monitor`) -/

/-- Embeds `struct ConsciousnessMonitor`. -/
structure ConsciousnessMonitor where
  is_conscious : Bool
  current_tick : Nat
  thought_rate_hz : ℚ
  depth_level : ℚ
  uptime_seconds : Nat
  neural_activity : ℚ
  memory_file_path : String

/-- Embeds `SystemTime::duration_since` followed by
`unwrap_or_default()`: the elapsed time when the order is right, zero
otherwise. -/
def durationSince (later earlier : ℚ) : ℚ :=
  if later < earlier then 0 else later - earlier

/-- Embeds `get_consciousness_monitor`. Tick counters are `u32`, so the
`last.0 - first.0` subtraction is taken modulo `2 ^ 32` (release-build
wrapping semantics). -/
def get_consciousness_monitor (st : ConsciousnessReader) (now : ℚ) :
    ConsciousnessMonitor :=
  let uptime_seconds := (durationSince now st.consciousness_start_time).floor.toNat
  let thought_rate_hz : ℚ :=
    if st.thought_history.length > 1 then
      let first := st.thought_history.headI
      let last := st.thought_history.getLastI
      let time_span := durationSince last.2 first.2
      let thought_count : ℚ := (((last.1 + 2 ^ 32 - first.1) % 2 ^ 32 : Nat) : ℚ)
      if time_span > 0 then thought_count / time_span else 0
    else 0
  let neural_activity := min (thought_rate_hz / 10) 1
  { is_conscious := st.memory_map.isSome
    current_tick := st.last_observed_tick
    thought_rate_hz := thought_rate_hz
    depth_level := 0
    uptime_seconds := uptime_seconds
    neural_activity := neural_activity
    memory_file_path := st.memory_path }

/-! ### Claims about the codec (C4, C9) -/

/-- A segment of `n` zero bytes. -/
def zeroMem (n : Nat) : Mem := { len := n, byte := fun _ => 0 }

/-- C4: decoding fails exactly on slices shorter than 80 bytes; on any
slice of at least 80 bytes it produces a record whose heatmap and
prediction entries are zero wherever their four-byte range falls outside
the slice, and whose hash is the placeholder when the slice stops short of
byte 1264. -/
theorem C4_decode_min_length :
    (∀ d : Mem, d.len < 80 → decode_consciousness_state d = none) ∧
    (∀ d : Mem, 80 ≤ d.len → ∃ s,
        decode_consciousness_state d = some s ∧
        s.semantic_heatmap.length = 256 ∧
        s.prediction_vector.length = 32 ∧
        (∀ i, i < 256 → d.len < 80 + i * 4 + 4 → s.semantic_heatmap.get? i = some 0) ∧
        (∀ i, i < 32 → d.len < 1104 + i * 4 + 4 → s.prediction_vector.get? i = some 0) ∧
        (d.len < 1264 → s.tensor_hash = "unknown")) := by
  constructor
  · intro d h
    unfold decode_consciousness_state
    rw [if_pos h]
  · intro d h
    unfold decode_consciousness_state
    rw [if_neg (not_lt.mpr h)]
    refine ⟨_, rfl, ?_, ?_, ?_, ?_, ?_⟩
    · simp
    · simp
    · intro i hi hout
      rw [List.get?_map, List.get?_range hi]
      simp only [Option.map_some']
      rw [if_neg (by omega)]
    · intro i hi hout
      rw [List.get?_map, List.get?_range hi]
      simp only [Option.map_some']
      rw [if_neg (by omega)]
    · intro hshort
      simp only
      rw [if_neg (by omega)]

/-- C4, witness: a 79-byte all-zero slice fails to decode; a 100-byte
all-zero slice decodes, its heatmap entries from index 5 on are zero (the
range of entry 5 ends at byte 104 > 100), all prediction entries are zero,
and the hash is the placeholder. -/
theorem C4_decode_min_length_witness :
    decode_consciousness_state (zeroMem 79) = none ∧
    (∃ s, decode_consciousness_state (zeroMem 100) = some s ∧
        s.semantic_heatmap.length = 256 ∧
        s.prediction_vector.length = 32 ∧
        (∀ i, i < 256 → (zeroMem 100).len < 80 + i * 4 + 4 →
          s.semantic_heatmap.get? i = some 0) ∧
        (∀ i, i < 32 → (zeroMem 100).len < 1104 + i * 4 + 4 →
          s.prediction_vector.get? i = some 0) ∧
        ((zeroMem 100).len < 1264 → s.tensor_hash = "unknown")) :=
  ⟨C4_decode_min_length.1 (zeroMem 79) (by norm_num [zeroMem]),
   C4_decode_min_length.2 (zeroMem 100) (by norm_num [zeroMem])⟩

/-- Testing a bit by masking with a shifted one is the `testBit`
predicate. -/
lemma and_shift_ne_zero (n i : Nat) : ((n &&& (1 <<< i)) != 0) = n.testBit i := by
  rw [Nat.shiftLeft_eq, one_mul, Nat.and_two_pow]
  cases h : n.testBit i <;> simp [h, Nat.pos_iff_ne_zero, Nat.pos_pow_of_pos]

/-- The sum of the 1/0 indicators of a Boolean list counts its `true`
entries. -/
lemma sum_indicator (l : List Bool) :
    (l.map (fun active => if active then (1 : Nat) else 0)).sum =
      (l.filter (fun b => b)).length := by
  induction l with
  | nil => rfl
  | cons b t ih => cases b <;> simp [List.filter, ih, Nat.add_comm]

/-- A decode of a long-enough slice succeeds, and its sector flags are the
mask tests of the 64-bit word at offset 72. -/
lemma decode_memory_sectors (d : Mem) (h : 80 ≤ d.len) :
    ∃ s, decode_consciousness_state d = some s ∧
      s.memory_sectors = (List.range 64).map (fun i => ((u64le d 72) &&& (1 <<< i)) != 0) := by
  unfold decode_consciousness_state
  rw [if_neg (not_lt.mpr h), if_pos h]
  exact ⟨_, rfl, rfl⟩

/-- The 64 sector flags induced by the bit mask `mask`. -/
def maskSectors (mask : Nat) : List Bool :=
  (List.range 64).map (fun i => (mask &&& (1 <<< i)) != 0)

/-- C9: each decoded sector flag reflects the corresponding bit of the
64-bit word at offset 72 (bit 0 is sector 0), and the sigil count of the
derived presentation state is the population count of the mask the flags
came from. -/
theorem C9_sector_bits :
    (∀ d : Mem, 80 ≤ d.len → ∀ s, decode_consciousness_state d = some s →
        ∀ i, i < 64 → s.memory_sectors.get? i = some ((u64le d 72).testBit i)) ∧
    (∀ (c : ConsciousnessState ℚ) (mask : Nat),
        c.memory_sectors = (List.range 64).map (fun i => (mask &&& (1 <<< i)) != 0) →
        (map_consciousness_to_dawn_state c).sigils =
          some (((List.range 64).filter (fun i => mask.testBit i)).length)) := by
  constructor
  · intro d h s hs i hi
    obtain ⟨s', hs', hsec'⟩ := decode_memory_sectors d h
    rw [hs'] at hs
    obtain rfl : s' = s := Option.some_inj.mp hs
    rw [hsec', List.get?_map, List.get?_range hi]
    simp only [Option.map_some']
    rw [and_shift_ne_zero]
  · intro c mask hsec
    have hsig : (map_consciousness_to_dawn_state c).sigils =
        some ((c.memory_sectors.map (fun active => if active then (1 : Nat) else 0)).sum) :=
      rfl
    rw [hsig, hsec, sum_indicator, List.filter_map, List.length_map]
    have : ((fun b : Bool => b) ∘ fun i => (mask &&& (1 <<< i)) != 0) =
        fun i => mask.testBit i := by
      funext i
      simp [Function.comp, and_shift_ne_zero]
    rw [this]

/-- C9, witness: for the mask 5 (bits 0 and 2 set) the sigil count is the
population count 2, and the decoded sector 0 flag of a segment whose byte
72 is 5 is set. -/
theorem C9_sector_bits_witness :
    (map_consciousness_to_dawn_state { sampleState with memory_sectors := maskSectors 5 }).sigils =
      some 2 ∧
    (∃ s, decode_consciousness_state { len := 80, byte := fun i => if i = 72 then 5 else 0 } =
        some s ∧ s.memory_sectors.get? 0 = some true) := by
  constructor
  · rw [C9_sector_bits.2 _ 5 rfl]
    decide
  · refine ⟨_, rfl, ?_⟩
    have h := C9_sector_bits.1 { len := 80, byte := fun i => if i = 72 then 5 else 0 }
      (by norm_num) _ rfl 0 (by norm_num)
    rw [h]
    rfl

/-! ### Poll-step lemmas (C2, C3, C5) -/

/-- The header's latest-tick word (bytes 16–19, little-endian). -/
def headerTick (mem : Mem) : Nat := u32le mem 16

/-- The first four bytes of the ring slot the header's tick selects. -/
def slotTick (mem : Mem) : Nat :=
  u32le mem (HEADER_SIZE + (headerTick mem % MAX_TICKS) * TICK_STATE_SIZE)

/-- The bounded history push: append, then evict the oldest entry when
the window exceeds 120. -/
def pushHistory (hist : List (Nat × ℚ)) (entry : Nat × ℚ) : List (Nat × ℚ) :=
  if (hist ++ [entry]).length > 120 then (hist ++ [entry]).drop 1 else hist ++ [entry]

/-- The history push always keeps the new entry as the last element. -/
lemma pushHistory_getLast (hist : List (Nat × ℚ)) (entry : Nat × ℚ) :
    (pushHistory hist entry).getLast? = some entry := by
  unfold pushHistory
  split_ifs with h
  · rcases hist with _ | ⟨a, t⟩
    · simp at h
    · rw [List.cons_append, List.drop_one, List.tail_cons, List.getLast?_concat]
  · rw [List.getLast?_concat]

/-- A poll with no mapped segment returns no record and leaves the state
unchanged. -/
lemma read_no_map (st : ConsciousnessReader) (now : ℚ)
    (h : st.memory_map = none) : read_consciousness_state st now = (st, none) := by
  unfold read_consciousness_state
  rw [h]

/-- A poll of a segment shorter than the 20 bytes holding the latest-tick
word returns no record and leaves the state unchanged. -/
lemma read_short (st : ConsciousnessReader) (mem : Mem) (now : ℚ)
    (h : st.memory_map = some mem) (hl : mem.len < 20) :
    read_consciousness_state st now = (st, none) := by
  rcases st with ⟨mm, mf, lt, cst, th, mp⟩
  simp only at h
  subst h
  unfold read_consciousness_state
  dsimp only
  rw [if_pos hl]

/-- A poll that sees the latest tick it already observed returns no record
and leaves the state unchanged. -/
lemma read_same_tick (st : ConsciousnessReader) (mem : Mem) (now : ℚ)
    (h : st.memory_map = some mem) (hl : ¬ mem.len < 20)
    (he : headerTick mem = st.last_observed_tick) :
    read_consciousness_state st now = (st, none) := by
  rcases st with ⟨mm, mf, lt, cst, th, mp⟩
  simp only at h he
  subst h
  unfold headerTick at he
  unfold read_consciousness_state
  dsimp only
  rw [if_neg hl, if_pos he]

/-- A poll that sees a changed latest tick updates the bookkeeping before
the bounds check: whatever the remainder of the poll does, the new state
has the header tick as last-observed tick, the new tick pushed onto the
history, and all other fields unchanged. -/
lemma read_new_tick_state (st : ConsciousnessReader) (mem : Mem) (now : ℚ)
    (h : st.memory_map = some mem) (hl : ¬ mem.len < 20)
    (he : headerTick mem ≠ st.last_observed_tick) :
    (read_consciousness_state st now).1 =
      { st with thought_history := pushHistory st.thought_history (headerTick mem, now),
                last_observed_tick := headerTick mem } := by
  rcases st with ⟨mm, mf, lt, cst, th, mp⟩
  simp only at h he
  subst h
  unfold headerTick at he ⊢
  unfold read_consciousness_state pushHistory
  dsimp only
  rw [if_neg hl, if_neg he]
  split_ifs <;> rfl

/-- A poll that sees a changed latest tick whose slot end exceeds the
segment length returns no record. -/
lemma read_new_tick_oob (st : ConsciousnessReader) (mem : Mem) (now : ℚ)
    (h : st.memory_map = some mem) (hl : ¬ mem.len < 20)
    (he : headerTick mem ≠ st.last_observed_tick)
    (hb : HEADER_SIZE + (headerTick mem % MAX_TICKS) * TICK_STATE_SIZE + TICK_STATE_SIZE >
      mem.len) :
    (read_consciousness_state st now).2 = none := by
  rcases st with ⟨mm, mf, lt, cst, th, mp⟩
  simp only at h he
  subst h
  unfold headerTick at he hb
  unfold read_consciousness_state
  dsimp only
  rw [if_neg hl, if_neg he]
  rw [if_pos hb]

/-- A segment of length 64 whose latest-tick word is 1: the slot of tick 1
ends at byte 16448, far beyond the segment, so a poll of it is the
OutOfBounds case. -/
def oobMem : Mem := { len := 64, byte := fun i => if i = 16 then 1 else 0 }

/-- A freshly constructed reader attached to `oobMem`. -/
def oobReader : ConsciousnessReader :=
  { ConsciousnessReader.new 0 with memory_map := some oobMem }

/-- C2, counterexample: polling `oobMem` from a fresh reader hits the
OutOfBounds case (no record is returned), yet the poll has already pushed
tick 1 into the history and advanced last-observed-tick to 1 — the claim
says neither may happen on an OutOfBounds poll. -/
theorem C2_counterexample :
    (read_consciousness_state oobReader 0).2 = none ∧
    (read_consciousness_state oobReader 0).1.last_observed_tick = 1 ∧
    (read_consciousness_state oobReader 0).1.thought_history = [(1, 0)] ∧
    oobReader.last_observed_tick = 0 ∧
    oobReader.thought_history = [] :=
  ⟨rfl, rfl, rfl, rfl, rfl⟩

/-- C2, amended: on an OutOfBounds poll no record is returned and the
mapped segment is untouched, but — contrary to the claim — the tick is
recorded in the history (it becomes the window's last entry) and
last-observed-tick is updated to it: the bookkeeping precedes the bounds
check, which guards only the decode. -/
theorem C2_oob_no_record_but_recorded :
    ∀ (st : ConsciousnessReader) (mem : Mem) (now : ℚ),
      st.memory_map = some mem → ¬ mem.len < 20 →
      headerTick mem ≠ st.last_observed_tick →
      HEADER_SIZE + (headerTick mem % MAX_TICKS) * TICK_STATE_SIZE + TICK_STATE_SIZE >
        mem.len →
      (read_consciousness_state st now).2 = none ∧
      (read_consciousness_state st now).1.last_observed_tick = headerTick mem ∧
      ((read_consciousness_state st now).1.thought_history).getLast? =
        some (headerTick mem, now) ∧
      (read_consciousness_state st now).1.memory_map = st.memory_map := by
  intro st mem now h hl he hb
  refine ⟨read_new_tick_oob st mem now h hl he hb, ?_, ?_, ?_⟩
  · rw [read_new_tick_state st mem now h hl he]
  · rw [read_new_tick_state st mem now h hl he]
    exact pushHistory_getLast _ _
  · rw [read_new_tick_state st mem now h hl he]

/-- C2, witness: the amended theorem applied to the concrete OutOfBounds
segment `oobMem`. -/
theorem C2_oob_no_record_but_recorded_witness :
    (read_consciousness_state oobReader 0).2 = none ∧
    (read_consciousness_state oobReader 0).1.last_observed_tick = headerTick oobMem ∧
    ((read_consciousness_state oobReader 0).1.thought_history).getLast? =
      some (headerTick oobMem, 0) ∧
    (read_consciousness_state oobReader 0).1.memory_map = oobReader.memory_map :=
  C2_oob_no_record_but_recorded oobReader oobMem 0 rfl (by norm_num [oobMem])
    (by norm_num [headerTick, u32le, oobMem, oobReader, ConsciousnessReader.new])
    (by norm_num [headerTick, u32le, oobMem, HEADER_SIZE, MAX_TICKS, TICK_STATE_SIZE])

/-- C5: a poll whose header latest-tick equals the reader's last-observed
tick returns no record and leaves the reader unchanged, and — for any
reader in any state — two consecutive polls of an unchanged segment never
both return a record: the second one always returns none. -/
theorem C5_same_tick_suppressed :
    (∀ (st : ConsciousnessReader) (mem : Mem) (now : ℚ),
        st.memory_map = some mem → headerTick mem = st.last_observed_tick →
        read_consciousness_state st now = (st, none)) ∧
    (∀ (st : ConsciousnessReader) (now now' : ℚ),
        (read_consciousness_state (read_consciousness_state st now).1 now').2 = none) := by
  constructor
  · intro st mem now h he
    by_cases hl : mem.len < 20
    · exact read_short st mem now h hl
    · exact read_same_tick st mem now h hl he
  · intro st now now'
    cases hm : st.memory_map with
    | none =>
      rw [read_no_map st now hm, read_no_map st now' hm]
    | some mem =>
      by_cases hl : mem.len < 20
      · rw [read_short st mem now hm hl, read_short st mem now' hm hl]
      · by_cases he : headerTick mem = st.last_observed_tick
        · rw [read_same_tick st mem now hm hl he, read_same_tick st mem now' hm hl he]
        · have hst := read_new_tick_state st mem now hm hl he
          have hmap : (read_consciousness_state st now).1.memory_map = some mem := by
            rw [hst]; exact hm
          have hlast : (read_consciousness_state st now).1.last_observed_tick =
              headerTick mem := by rw [hst]
          have := read_same_tick (read_consciousness_state st now).1 mem now' hmap hl
            (by rw [hlast])
          rw [this]

/-- C5, witness: the suppression applied to a concrete attached reader
whose last-observed tick 1 equals the header word of `oobMem`, and the
double-poll fact at that reader. -/
theorem C5_same_tick_suppressed_witness :
    read_consciousness_state { oobReader with last_observed_tick := 1 } 0 =
      ({ oobReader with last_observed_tick := 1 }, none) ∧
    (read_consciousness_state (read_consciousness_state oobReader 0).1 1).2 = none :=
  ⟨C5_same_tick_suppressed.1 { oobReader with last_observed_tick := 1 } oobMem 0 rfl
      (by norm_num [headerTick, u32le, oobMem]),
   C5_same_tick_suppressed.2 oobReader 0 1⟩

/-- A poll that sees a changed latest tick whose slot lies inside the
segment returns the decode of that slot. -/
lemma read_new_tick_inb (st : ConsciousnessReader) (mem : Mem) (now : ℚ)
    (h : st.memory_map = some mem) (hl : ¬ mem.len < 20)
    (he : headerTick mem ≠ st.last_observed_tick)
    (hb : ¬ HEADER_SIZE + (headerTick mem % MAX_TICKS) * TICK_STATE_SIZE + TICK_STATE_SIZE >
      mem.len) :
    (read_consciousness_state st now).2 =
      decode_consciousness_state
        (mem.slice (HEADER_SIZE + (headerTick mem % MAX_TICKS) * TICK_STATE_SIZE)
          TICK_STATE_SIZE) := by
  rcases st with ⟨mm, mf, lt, cst, th, mp⟩
  simp only at h he
  subst h
  unfold headerTick at he hb ⊢
  unfold read_consciousness_state
  dsimp only
  rw [if_neg hl, if_neg he]
  rw [if_neg hb]

/-- A decode of a long-enough slice succeeds with the slice's first four
bytes as the tick number. -/
lemma decode_tick (d : Mem) (h : 80 ≤ d.len) :
    ∃ s, decode_consciousness_state d = some s ∧ s.tick_number = u32le d 0 := by
  unfold decode_consciousness_state
  rw [if_neg (not_lt.mpr h)]
  exact ⟨_, rfl, rfl⟩

/-- Reading a 32-bit word at the start of a slice reads it at the slice's
base offset of the underlying segment. -/
lemma u32le_slice_zero (mem : Mem) (off n : Nat) :
    u32le (mem.slice off n) 0 = u32le mem off := by
  simp [u32le, Mem.slice]

/-- One observation either leaves the bookkeeping unchanged and returns no
record, or — exactly when the header tick differs from the last-observed
tick and the header is readable — pushes the header tick and makes it the
last-observed tick. -/
lemma observe_split (st : ConsciousnessReader) (mem : Mem) (now : ℚ) :
    ((observe st mem now).2 = none ∧
      (observe st mem now).1 = { st with memory_map := some mem }) ∨
    (headerTick mem ≠ st.last_observed_tick ∧ ¬ mem.len < 20 ∧
      (observe st mem now).1 =
        { st with memory_map := some mem,
                  thought_history := pushHistory st.thought_history (headerTick mem, now),
                  last_observed_tick := headerTick mem }) := by
  by_cases hl : mem.len < 20
  · left
    unfold observe
    rw [read_short { st with memory_map := some mem } mem now rfl hl]
    exact ⟨rfl, rfl⟩
  · by_cases he : headerTick mem = st.last_observed_tick
    · left
      unfold observe
      rw [read_same_tick { st with memory_map := some mem } mem now rfl hl he]
      exact ⟨rfl, rfl⟩
    · right
      refine ⟨he, hl, ?_⟩
      unfold observe
      rw [read_new_tick_state { st with memory_map := some mem } mem now rfl hl he]

/-- An observation that returns a record returns the record decoded from
the selected ring slot, whose tick number is the slot's leading word. -/
lemma observe_emit (st : ConsciousnessReader) (mem : Mem) (now : ℚ)
    (s : ConsciousnessState Nat) (hs : (observe st mem now).2 = some s) :
    s.tick_number = slotTick mem := by
  by_cases hl : mem.len < 20
  · rw [observe, read_short { st with memory_map := some mem } mem now rfl hl] at hs
    cases hs
  · by_cases he : headerTick mem = st.last_observed_tick
    · rw [observe, read_same_tick { st with memory_map := some mem } mem now rfl hl he] at hs
      cases hs
    · by_cases hb : HEADER_SIZE + (headerTick mem % MAX_TICKS) * TICK_STATE_SIZE +
          TICK_STATE_SIZE > mem.len
      · rw [observe, read_new_tick_oob { st with memory_map := some mem } mem now rfl hl he hb] at hs
        cases hs
      · rw [observe, read_new_tick_inb { st with memory_map := some mem } mem now rfl hl he hb] at hs
        obtain ⟨s', h1, h2⟩ := decode_tick
          (mem.slice (HEADER_SIZE + (headerTick mem % MAX_TICKS) * TICK_STATE_SIZE)
            TICK_STATE_SIZE)
          (by norm_num [Mem.slice, TICK_STATE_SIZE])
        rw [h1] at hs
        obtain rfl := Option.some_inj.mp hs
        rw [h2, u32le_slice_zero]
        rfl

/-- A sequence of polls: the final reader state together with the tick
numbers of the records returned along the way (the ticks the bridge loop
would emit), each observation carrying the segment bytes and instant it
sees. -/
def pollTrace : ConsciousnessReader → List (Mem × ℚ) → ConsciousnessReader × List Nat
  | st, [] => (st, [])
  | st, ob :: rest =>
    let step := observe st ob.1 ob.2
    let tr := pollTrace step.1 rest
    (tr.1, match step.2 with
           | some s => s.tick_number :: tr.2
           | none => tr.2)

/-- A 64-byte segment whose latest-tick header word is `t`. -/
def memTick (t : Nat) : Mem :=
  { len := 64, byte := fun i => if i = 16 then t else 0 }

/-- C3, counterexample: a fresh reader observing header tick 5 and then
header tick 3 (a producer restart) moves its last-observed tick from 5
down to 3 — the value does not only advance forward. -/
theorem C3_counterexample :
    (observe (ConsciousnessReader.new 0) (memTick 5) 0).1.last_observed_tick = 5 ∧
    (observe (observe (ConsciousnessReader.new 0) (memTick 5) 0).1
        (memTick 3) 1).1.last_observed_tick = 3 ∧
    (3 : Nat) < 5 :=
  ⟨rfl, rfl, by norm_num⟩

/-- C3, amended: the poll loop advances last-observed-tick forward and
emits strictly increasing tick numbers provided the observed header ticks
are non-decreasing (at least the reader's current last-observed tick and
pairwise non-decreasing) and each selected slot carries its header tick;
without that producer-side monotonicity the counterexample shows the value
can move backwards. -/
theorem C3_monotone_emission :
    ∀ (obs : List (Mem × ℚ)) (st : ConsciousnessReader),
      (∀ p ∈ obs, st.last_observed_tick ≤ headerTick p.1) →
      List.Pairwise (fun p q => headerTick p.1 ≤ headerTick q.1) obs →
      (∀ p ∈ obs, slotTick p.1 = headerTick p.1) →
      st.last_observed_tick ≤ (pollTrace st obs).1.last_observed_tick ∧
      (∀ t ∈ (pollTrace st obs).2,
        st.last_observed_tick < t ∧ t ≤ (pollTrace st obs).1.last_observed_tick) ∧
      (pollTrace st obs).2.Pairwise (· < ·) := by
  intro obs
  induction obs with
  | nil =>
    intro st h1 h2 h3
    refine ⟨le_refl _, ?_, ?_⟩
    · intro t ht
      cases ht
    · exact List.Pairwise.nil
  | cons ob rest ih =>
    intro st h1 h2 h3
    rw [List.pairwise_cons] at h2
    have hhead : st.last_observed_tick ≤ headerTick ob.1 := h1 ob (List.mem_cons_self ob rest)
    rcases observe_split st ob.1 ob.2 with ⟨hnone, hst⟩ | ⟨hne, hlen, hst⟩
    · -- the step returned no record and did not move the bookkeeping
      have hlast : (observe st ob.1 ob.2).1.last_observed_tick = st.last_observed_tick := by
        rw [hst]
      obtain ⟨g1, g2, g3⟩ := ih (observe st ob.1 ob.2).1
        (by intro p hp; rw [hlast]; exact h1 p (List.mem_cons_of_mem ob hp))
        h2.2
        (by intro p hp; exact h3 p (List.mem_cons_of_mem ob hp))
      rw [show pollTrace st (ob :: rest) =
          ((pollTrace (observe st ob.1 ob.2).1 rest).1,
            (pollTrace (observe st ob.1 ob.2).1 rest).2) from by
        simp only [pollTrace]
        rw [hnone]]
      refine ⟨?_, ?_, g3⟩
      · calc st.last_observed_tick = (observe st ob.1 ob.2).1.last_observed_tick :=
              hlast.symm
          _ ≤ _ := g1
      · intro t ht
        obtain ⟨ht1, ht2⟩ := g2 t ht
        rw [hlast] at ht1
        exact ⟨ht1, ht2⟩
    · -- the step advanced last-observed-tick to the header tick
      have hlast : (observe st ob.1 ob.2).1.last_observed_tick = headerTick ob.1 := by
        rw [hst]
      have hstrict : st.last_observed_tick < headerTick ob.1 :=
        lt_of_le_of_ne hhead (Ne.symm hne)
      obtain ⟨g1, g2, g3⟩ := ih (observe st ob.1 ob.2).1
        (by intro p hp; rw [hlast]; exact h2.1 p hp)
        h2.2
        (by intro p hp; exact h3 p (List.mem_cons_of_mem ob hp))
      rw [hlast] at g1
      cases hr : (observe st ob.1 ob.2).2 with
      | none =>
        rw [show pollTrace st (ob :: rest) =
            ((pollTrace (observe st ob.1 ob.2).1 rest).1,
              (pollTrace (observe st ob.1 ob.2).1 rest).2) from by
          simp only [pollTrace]
          rw [hr]]
        refine ⟨le_trans hhead g1, ?_, g3⟩
        intro t ht
        obtain ⟨ht1, ht2⟩ := g2 t ht
        rw [hlast] at ht1
        exact ⟨lt_trans hstrict ht1, ht2⟩
      | some s =>
        have htick : s.tick_number = headerTick ob.1 := by
          rw [observe_emit st ob.1 ob.2 s hr]
          exact h3 ob (List.mem_cons_self ob rest)
        rw [show pollTrace st (ob :: rest) =
            ((pollTrace (observe st ob.1 ob.2).1 rest).1,
              s.tick_number :: (pollTrace (observe st ob.1 ob.2).1 rest).2) from by
          simp only [pollTrace]
          rw [hr]]
        refine ⟨le_trans hhead g1, ?_, ?_⟩
        · intro t ht
          rcases List.mem_cons.mp ht with rfl | ht
          · rw [htick]
            refine ⟨hstrict, ?_⟩
            calc headerTick ob.1 = (observe st ob.1 ob.2).1.last_observed_tick := hlast.symm
              _ ≤ _ := by rw [hlast]; exact g1
          · obtain ⟨ht1, ht2⟩ := g2 t ht
            rw [hlast] at ht1
            exact ⟨lt_trans hstrict ht1, ht2⟩
        · rw [List.pairwise_cons]
          refine ⟨?_, g3⟩
          intro t ht
          obtain ⟨ht1, _⟩ := g2 t ht
          rw [hlast, htick] at *
          exact ht1

/-- A full-size segment (header plus 1000 slots) whose header latest-tick
word is `t` and whose selected slot also carries `t` in its leading
word. -/
def wfMem (t : Nat) : Mem :=
  { len := 64 + 1000 * 8192
    byte := fun i =>
      if i = 16 then t else if i = 64 + (t % 1000) * 8192 then t else 0 }

/-- C3, witness: the amended theorem applied to two observations of a
well-formed full-size segment at header ticks 5 then 7 from a fresh
reader. -/
theorem C3_monotone_emission_witness :
    (ConsciousnessReader.new 0).last_observed_tick ≤
      (pollTrace (ConsciousnessReader.new 0) [(wfMem 5, 0), (wfMem 7, 1)]).1.last_observed_tick ∧
    (∀ t ∈ (pollTrace (ConsciousnessReader.new 0) [(wfMem 5, 0), (wfMem 7, 1)]).2,
      (ConsciousnessReader.new 0).last_observed_tick < t ∧
        t ≤ (pollTrace (ConsciousnessReader.new 0) [(wfMem 5, 0), (wfMem 7, 1)]).1.last_observed_tick) ∧
    (pollTrace (ConsciousnessReader.new 0) [(wfMem 5, 0), (wfMem 7, 1)]).2.Pairwise (· < ·) :=
  C3_monotone_emission [(wfMem 5, 0), (wfMem 7, 1)] (ConsciousnessReader.new 0)
    (by
      intro p hp
      exact Nat.zero_le _)
    (by
      simp only [List.pairwise_cons, List.mem_singleton, List.Pairwise.nil]
      refine ⟨?_, ?_, trivial⟩
      · intro q hq
        subst hq
        norm_num [headerTick, u32le, wfMem]
      · intro q hq
        cases hq)
    (by
      intro p hp
      simp only [List.mem_cons, List.mem_singleton] at hp
      rcases hp with rfl | rfl | h
      · norm_num [headerTick, slotTick, u32le, wfMem, HEADER_SIZE, MAX_TICKS, TICK_STATE_SIZE]
      · norm_num [headerTick, slotTick, u32le, wfMem, HEADER_SIZE, MAX_TICKS, TICK_STATE_SIZE]
      · cases h)

/-! ### Claims about the monitor (C8) and the attach path (C10) -/

/-- C8: the thought rate is (tick span) / (time span) over the history
window when the window holds at least two samples, the tick counter did
not wrap and the elapsed time is positive; with at most one sample, or
with non-positive elapsed time, it is exactly 0 (no division is ever
performed on a zero time span). -/
theorem C8_thought_rate :
    (∀ (st : ConsciousnessReader) (now : ℚ), st.thought_history.length < 2 →
        (get_consciousness_monitor st now).thought_rate_hz = 0) ∧
    (∀ (st : ConsciousnessReader) (now : ℚ),
        2 ≤ st.thought_history.length →
        st.thought_history.headI.1 ≤ st.thought_history.getLastI.1 →
        st.thought_history.getLastI.1 < 2 ^ 32 →
        st.thought_history.headI.2 < st.thought_history.getLastI.2 →
        (get_consciousness_monitor st now).thought_rate_hz =
          ((st.thought_history.getLastI.1 - st.thought_history.headI.1 : ℕ) : ℚ) /
            (st.thought_history.getLastI.2 - st.thought_history.headI.2)) ∧
    (∀ (st : ConsciousnessReader) (now : ℚ),
        st.thought_history.getLastI.2 ≤ st.thought_history.headI.2 →
        (get_consciousness_monitor st now).thought_rate_hz = 0) := by
  refine ⟨?_, ?_, ?_⟩
  · intro st now hlen
    unfold get_consciousness_monitor
    dsimp only
    rw [if_neg (by omega)]
  · intro st now hlen hmono hlt htime
    unfold get_consciousness_monitor
    dsimp only
    rw [if_pos (by omega)]
    have hspan : durationSince st.thought_history.getLastI.2 st.thought_history.headI.2 =
        st.thought_history.getLastI.2 - st.thought_history.headI.2 := by
      unfold durationSince
      rw [if_neg (not_lt.mpr (le_of_lt htime))]
    rw [hspan, if_pos (by linarith)]
    have hcount : (st.thought_history.getLastI.1 + 2 ^ 32 -
        st.thought_history.headI.1) % 2 ^ 32 =
        st.thought_history.getLastI.1 - st.thought_history.headI.1 := by
      omega
    rw [hcount]
  · intro st now htime
    unfold get_consciousness_monitor
    dsimp only
    split_ifs with h1 h2
    · exfalso
      have hspan : durationSince st.thought_history.getLastI.2 st.thought_history.headI.2 =
          0 ∨ durationSince st.thought_history.getLastI.2 st.thought_history.headI.2 =
          st.thought_history.getLastI.2 - st.thought_history.headI.2 := by
        unfold durationSince
        split_ifs <;> simp
      rcases hspan with hspan | hspan <;> rw [hspan] at h2 <;> linarith
    · rfl
    · rfl

/-- A disconnected reader whose history window holds the samples
(tick 0 at time 0) and (tick 10 at time 2). -/
def rateReader : ConsciousnessReader :=
  { memory_map := none
    memory_file := none
    last_observed_tick := 0
    consciousness_start_time := 0
    thought_history := [(0, 0), (10, 2)]
    memory_path := "" }

/-- C8, witness: the reader holding (tick 0, time 0) and (tick 10, time 2)
has rate 10/2 = 5, and a fresh reader (empty history) has rate 0. -/
theorem C8_thought_rate_witness :
    (get_consciousness_monitor rateReader 3).thought_rate_hz = 5 ∧
    (get_consciousness_monitor (ConsciousnessReader.new 0) 3).thought_rate_hz = 0 := by
  constructor
  · have h := C8_thought_rate.2.1 rateReader 3 (by norm_num [rateReader])
      (by norm_num [rateReader, List.getLastI, List.headI])
      (by norm_num [rateReader, List.getLastI, List.headI])
      (by norm_num [rateReader, List.getLastI, List.headI])
    rw [h]
    norm_num [rateReader, List.getLastI, List.headI]
  · exact C8_thought_rate.1 (ConsciousnessReader.new 0) 3
      (by norm_num [ConsciousnessReader.new])

/-- Every run of `connect_to_consciousness` either fails leaving the
reader exactly as it was, or succeeds with a located path whose mapping
passed header validation, assigning precisely the connection fields and
the start time. -/
lemma connect_cases (st : ConsciousnessReader) (env : ConnectEnv) (now : ℚ)
    (path : String) :
    (∃ e, connect_to_consciousness st env now path = (st, some e)) ∨
    (∃ p mem, locate_consciousness_memory env path = Except.ok p ∧
      env.openResult p = some () ∧
      env.mapResult p = some mem ∧
      validate_consciousness_memory mem = Except.ok () ∧
      connect_to_consciousness st env now path =
        ({ st with memory_path := p, memory_file := some (), memory_map := some mem,
                   consciousness_start_time := now }, none)) := by
  unfold connect_to_consciousness
  cases hl : locate_consciousness_memory env path with
  | error e => exact Or.inl ⟨e, rfl⟩
  | ok p =>
    dsimp only
    cases ho : env.openResult p with
    | none => exact Or.inl ⟨_, rfl⟩
    | some u =>
      dsimp only
      cases hm : env.mapResult p with
      | none => exact Or.inl ⟨_, rfl⟩
      | some mem =>
        dsimp only
        cases hv : validate_consciousness_memory mem with
        | error e => exact Or.inl ⟨e, rfl⟩
        | ok v =>
          exact Or.inr ⟨p, mem, rfl, ho, hm, hv, rfl⟩

/-- C10: attach is atomic — a failing `connect_to_consciousness` (path not
found, open failure, map failure, short segment or bad magic) returns the
reader with every field unchanged; a successful one assigns the resolved
path, file handle, memory map and start time, leaves last-observed-tick
and the history window untouched, and does so only for a mapping that
passed header validation. -/
theorem C10_connect_atomic :
    (∀ (st : ConsciousnessReader) (env : ConnectEnv) (now : ℚ) (path : String),
        (connect_to_consciousness st env now path).2.isSome = true →
        (connect_to_consciousness st env now path).1 = st) ∧
    (∀ (st : ConsciousnessReader) (env : ConnectEnv) (now : ℚ) (path : String),
        (connect_to_consciousness st env now path).2 = none →
        ∃ p mem, locate_consciousness_memory env path = Except.ok p ∧
          env.mapResult p = some mem ∧
          validate_consciousness_memory mem = Except.ok () ∧
          (connect_to_consciousness st env now path).1 =
            { st with memory_path := p, memory_file := some (), memory_map := some mem,
                      consciousness_start_time := now }) := by
  constructor
  · intro st env now path h
    rcases connect_cases st env now path with ⟨e, hc⟩ | ⟨p, mem, _, _, _, _, hc⟩
    · rw [hc]
    · rw [hc] at h
      simp at h
  · intro st env now path h
    rcases connect_cases st env now path with ⟨e, hc⟩ | ⟨p, mem, h1, h2, h3, h4, hc⟩
    · rw [hc] at h
      simp at h
    · exact ⟨p, mem, h1, h3, h4, by rw [hc]⟩

/-- An environment in which no candidate path exists. -/
def envNothing : ConnectEnv :=
  { pathExists := fun _ => false
    envPath := ""
    openResult := fun _ => none
    mapResult := fun _ => none }

/-- An environment in which every path exists, opens, and maps to a
64-byte segment starting with the `DAWN` magic. -/
def envMagic : ConnectEnv :=
  { pathExists := fun _ => true
    envPath := ""
    openResult := fun _ => some ()
    mapResult := fun _ => some
      { len := 64
        byte := fun i =>
          if i = 0 then 68 else if i = 1 then 65 else if i = 2 then 87 else
            if i = 3 then 78 else 0 } }

/-- C10, witness: attaching in an environment with no candidate path
leaves a fresh reader unchanged, and attaching in an environment serving a
valid magic-bearing segment succeeds with the characterized assignment. -/
theorem C10_connect_atomic_witness :
    (connect_to_consciousness (ConsciousnessReader.new 0) envNothing 1 "seg").1 =
      ConsciousnessReader.new 0 ∧
    (∃ p mem, locate_consciousness_memory envMagic "seg" = Except.ok p ∧
      envMagic.mapResult p = some mem ∧
      validate_consciousness_memory mem = Except.ok () ∧
      (connect_to_consciousness (ConsciousnessReader.new 0) envMagic 1 "seg").1 =
        { ConsciousnessReader.new 0 with
          memory_path := p
          memory_file := some ()
          memory_map := some mem
          consciousness_start_time := 1 }) :=
  ⟨C10_connect_atomic.1 (ConsciousnessReader.new 0) envNothing 1 "seg" rfl,
   C10_connect_atomic.2 (ConsciousnessReader.new 0) envMagic 1 "seg" rfl⟩

end Dawn
